import Mathlib

set_option maxRecDepth 100000
set_option linter.unusedVariables false

/-! Shallow embedding of the Cyberwar-Simulation server engine
(src/server.js): the game configuration, the game state, the
EnhancedMinimaxAI class (evaluate, calculateDefenseEffectiveness,
minimax, simulateMove, processTurn, getBestMove) and the state-mutating
logic of the /attack and /defend endpoints.

Numbers are modelled as rationals.  Scores carry the JavaScript
plus/minus Infinity values used by evaluate, so the score type is
WithBot (WithTop Rat).  Every Math.random() draw is passed in
explicitly: a single roll r for a live endpoint application, and a
stream of rolls (indexed by the order in which the engine draws them)
for the search.  The move catalogs attackPatterns and defenseOptions
are loaded from data files that are not part of the server source, so
they are parameters of every definition that reads them. -/

/-- CONFIG.MAX_SECURITY -/
def MAX_SECURITY : ℚ := 100

/-- CONFIG.MIN_SECURITY -/
def MIN_SECURITY : ℚ := 0

/-- CONFIG.INITIAL_RESOURCES -/
def INITIAL_RESOURCES : ℚ := 100

/-- CONFIG.TURN_RESOURCES.attacker -/
def TURN_RESOURCES_attacker : ℚ := 10

/-- CONFIG.TURN_RESOURCES.defender -/
def TURN_RESOURCES_defender : ℚ := 15

/-- CONFIG.SECURITY_DECAY_RATE -/
def SECURITY_DECAY_RATE : ℚ := 1

/-- Score values: rationals extended with the plus/minus Infinity that
evaluate returns on terminal states. -/
abbrev EScore := WithBot (WithTop ℚ)

/-- Embed a finite rational score. -/
def toScore (q : ℚ) : EScore := ((q : WithTop ℚ) : EScore)

/-- A move object as found in the attackPatterns / defenseOptions
catalogs.  JavaScript objects are duck-typed; simulateMove discriminates
on move.type === "defense", attacks carry damage, defenses carry
security_boost and effective_against.  Unused fields of the other
flavour are simply present (as they would be absent / undefined in JS,
they are never read on the wrong flavour). -/
structure Move where
  id : ℕ
  name : String
  type : String
  cost : ℚ
  damage : ℚ
  security_boost : ℚ
  effectiveness : ℚ
  effective_against : List String
  deriving DecidableEq

/-- One side of the game: resources, lastMove, and the applied-move
array (gameState.attacker.attacks resp. gameState.defender.defenses). -/
structure ActorState where
  resources : ℚ
  lastMove : Option Move
  moves : List Move
  deriving DecidableEq

/-- gameState.network -/
structure NetworkState where
  security_level : ℚ
  deriving DecidableEq

/-- The game state object of server.js. -/
structure GameState where
  turn : ℕ
  attacker : ActorState
  defender : ActorState
  network : NetworkState
  gameOver : Bool
  winner : Option String
  currentPlayer : String
  deriving DecidableEq

/-- The mutable fields of the EnhancedMinimaxAI object: search depth and
the rolling history of defense ids chosen at the root. -/
structure AIEngine where
  depth : ℕ
  defenseHistory : List ℕ
  deriving DecidableEq

/-- The fresh game state built by the /init endpoint (and the initial
module-level gameState). -/
def initGameState : GameState :=
  { turn := 0
    attacker := { resources := INITIAL_RESOURCES, lastMove := none, moves := [] }
    defender := { resources := INITIAL_RESOURCES, lastMove := none, moves := [] }
    network := { security_level := 50 }
    gameOver := false
    winner := none
    currentPlayer := "attacker" }

/-- checkGameEnd of server.js: win-condition evaluation on the live
state, checked in order security_level at or below MIN_SECURITY
(attacker wins), security_level at or above MAX_SECURITY (defender
wins), both resources at or below 0 (defender wins iff security_level
is at least 50). -/
def checkGameEnd (gs : GameState) : GameState :=
  if gs.network.security_level ≤ MIN_SECURITY then
    { gs with gameOver := true, winner := some "attacker" }
  else if MAX_SECURITY ≤ gs.network.security_level then
    { gs with gameOver := true, winner := some "defender" }
  else if gs.attacker.resources ≤ 0 ∧ gs.defender.resources ≤ 0 then
    { gs with gameOver := true,
              winner := some (if 50 ≤ gs.network.security_level then "defender" else "attacker") }
  else gs

namespace EnhancedMinimaxAI

/-- calculateDefenseEffectiveness: average effectiveness of the catalog
defenses whose effective_against list contains the attack type. -/
def calculateDefenseEffectiveness (defenseOptions : List Move) (attack : Move) : ℚ :=
  let effectiveDefenses := defenseOptions.filter (fun d => decide (attack.type ∈ d.effective_against))
  if effectiveDefenses.isEmpty then 0
  else (effectiveDefenses.map (fun d => d.effectiveness)).sum / (effectiveDefenses.length : ℚ)

/-- evaluate: heuristic score of a state from the defender viewpoint.
Terminal states give plus Infinity for a defender win, minus Infinity
otherwise.  Non-terminal: security component, resource differential
capped at 20, counter-effectiveness against the last attack, and a
penalty of 15 when the last three applied defenses share one id.
The method reads only the state and the defense catalog; the engine
fields (ai) are not consulted. -/
def evaluate (ai : AIEngine) (defenseOptions : List Move) (state : GameState) : EScore :=
  if state.gameOver then
    if state.winner = some "defender" then ((⊤ : WithTop ℚ) : EScore) else (⊥ : EScore)
  else
    let base := state.network.security_level / MAX_SECURITY * 60
    let s1 := base + min 20 ((state.defender.resources - state.attacker.resources) / 5)
    let s2 := match state.attacker.lastMove with
      | some lastAttack => s1 + calculateDefenseEffectiveness defenseOptions lastAttack * 20
      | none => s1
    let lastDefenses := state.defender.moves.drop (state.defender.moves.length - 3)
    let s3 := if 3 ≤ lastDefenses.length ∧ (lastDefenses.map (fun d => d.id)).dedup.length = 1
      then s2 - 15 else s2
    toScore s3

/-- processTurn: increment the turn counter, grant the per-turn
resources (the branch on the already-updated currentPlayer means the
side that just moved receives its own regeneration), apply the security
decay, and evaluate the win conditions (the inline block is identical
to checkGameEnd). -/
def processTurn (st : GameState) : GameState :=
  let st1 := { st with turn := st.turn + 1 }
  let st2 :=
    if st1.currentPlayer = "defender" then
      { st1 with attacker := { st1.attacker with resources := st1.attacker.resources + TURN_RESOURCES_attacker } }
    else
      { st1 with defender := { st1.defender with resources := st1.defender.resources + TURN_RESOURCES_defender } }
  let st3 := { st2 with network := { security_level := max MIN_SECURITY (st2.network.security_level - SECURITY_DECAY_RATE) } }
  checkGameEnd st3

/-- simulateMove: the Transition Function used inside the search.  A
defense raises security by security_boost times (1 + r times 0.2) (the
nominal effectiveness is not applied), an attack lowers it by damage
times effectiveness times (0.9 + r times 0.2); both then run
processTurn.  r is the Math.random() draw of this call. -/
def simulateMove (st : GameState) (move : Move) (r : ℚ) : GameState :=
  if move.type = "defense" then
    let st1 := { st with defender := { st.defender with resources := st.defender.resources - move.cost } }
    let sec2 := min MAX_SECURITY (st1.network.security_level + move.security_boost * (1 + r * (1/5)))
    let st2 := { st1 with network := { security_level := sec2 } }
    let st3 := { st2 with
      defender := { st2.defender with lastMove := some move, moves := st2.defender.moves ++ [move] },
      currentPlayer := "attacker" }
    processTurn st3
  else
    let st1 := { st with attacker := { st.attacker with resources := st.attacker.resources - move.cost } }
    let eff := move.effectiveness * (9/10 + r * (1/5))
    let sec2 := max MIN_SECURITY (st1.network.security_level - move.damage * eff)
    let st2 := { st1 with network := { security_level := sec2 } }
    let st3 := { st2 with
      attacker := { st2.attacker with lastMove := some move, moves := st2.attacker.moves ++ [move] },
      currentPlayer := "defender" }
    processTurn st3

/-- minimax: bounded-depth alternating search.  The roll stream ρ is
consumed one entry per simulateMove call, threading the next unread
index k; the returned pair is (value, next index). -/
def minimax (atkC defC : List Move) (ρ : ℕ → ℚ) (ai : AIEngine) :
    ℕ → GameState → Bool → ℕ → EScore × ℕ
  | 0, st, _, k => (evaluate ai defC st, k)
  | d + 1, st, isMaximizing, k =>
    if st.gameOver then (evaluate ai defC st, k)
    else if isMaximizing then
      let avail := defC.filter (fun m => decide (m.cost ≤ st.defender.resources))
      if avail.isEmpty then (evaluate ai defC st, k)
      else avail.foldl (fun acc m =>
        let st2 := simulateMove st m (ρ acc.2)
        let mm := minimax atkC defC ρ ai d st2 false (acc.2 + 1)
        (max acc.1 mm.1, mm.2)) ((⊥ : EScore), k)
    else
      let avail := atkC.filter (fun m => decide (m.cost ≤ st.attacker.resources))
      if avail.isEmpty then (evaluate ai defC st, k)
      else avail.foldl (fun acc m =>
        let st2 := simulateMove st m (ρ acc.2)
        let mm := minimax atkC defC ρ ai d st2 true (acc.2 + 1)
        (min acc.1 mm.1, mm.2)) ((((⊤ : WithTop ℚ)) : EScore), k)

/-- One iteration of the root scoring loop of getBestMove: simulate the
candidate defense with the next roll, search the result at depth
ai.depth - 1, add the counter-attack bonus (10 times effectiveness when
the defense counters the last attack) and subtract 5 points per
occurrence of the defense id in the engine defenseHistory; the scored
candidate is appended to the accumulator together with the next unread
roll index. -/
def rootScoreStep (atkC defC : List Move) (ρ : ℕ → ℚ) (ai : AIEngine) (state : GameState)
    (acc : List (Move × EScore) × ℕ) (dm : Move) : List (Move × EScore) × ℕ :=
  let st2 := simulateMove state dm (ρ acc.2)
  let mm := minimax atkC defC ρ ai (ai.depth - 1) st2 false (acc.2 + 1)
  let withBonus := match state.attacker.lastMove with
    | some lastAttack =>
      if lastAttack.type ∈ dm.effective_against then mm.1 + toScore (10 * dm.effectiveness)
      else mm.1
    | none => mm.1
  let recentUses := (ai.defenseHistory.filter (fun i => decide (i = dm.id))).length
  let finalScore := withBonus + toScore (-(5 * (recentUses : ℚ)))
  (acc.1 ++ [(dm, finalScore)], mm.2)

/-- Root scoring loop of getBestMove: the candidate defenses paired with
their adjusted scores, in catalog order. -/
def rootScores (atkC defC : List Move) (ρ : ℕ → ℚ) (ai : AIEngine) (state : GameState)
    (avail : List Move) : List (Move × EScore) :=
  (avail.foldl (rootScoreStep atkC defC ρ ai state) (([] : List (Move × EScore)), 0)).1

/-- One step of the root best-candidate update of getBestMove: the
candidate replaces the current best when its score is strictly greater,
or equal while its cost is strictly below the cost of the current best
move (when there is no current best move the JavaScript cost comparison
against undefined is false). -/
def rootStep (acc : Option Move × EScore) (c : Move × EScore) : Option Move × EScore :=
  match acc with
  | (none, bestScore) =>
    if bestScore < c.2 then (some c.1, c.2) else (none, bestScore)
  | (some b, bestScore) =>
    if bestScore < c.2 ∨ (c.2 = bestScore ∧ c.1.cost < b.cost) then (some c.1, c.2)
    else (some b, bestScore)

/-- getBestMove: filter the affordable defenses, score each candidate
(rootScores), keep the best under rootStep starting from
(null, minus Infinity), and on success append the chosen id to the
rolling defenseHistory (bounded to five entries, oldest evicted). -/
def getBestMove (atkC defC : List Move) (ρ : ℕ → ℚ) (ai : AIEngine) (state : GameState) :
    Option Move × AIEngine :=
  let availableDefenses := defC.filter (fun d => decide (d.cost ≤ state.defender.resources))
  if availableDefenses.isEmpty then (none, ai)
  else
    let scored := rootScores atkC defC ρ ai state availableDefenses
    let best := scored.foldl rootStep (none, (⊥ : EScore))
    match best.1 with
    | some bestMove =>
      let h1 := ai.defenseHistory ++ [bestMove.id]
      (some bestMove, { ai with defenseHistory := if 5 < h1.length then h1.drop 1 else h1 })
    | none => (none, ai)

end EnhancedMinimaxAI

/-- Errors returned by the endpoints with HTTP 400. -/
inductive ApiError where
  | gameEnded
  | notYourTurn
  | invalidAttack
  | notEnoughResources
  | cannotDefend
  deriving DecidableEq

/-- The enhanced defense response of the /defend endpoint (name,
realized boost, realized effectiveness, cost). -/
structure DefenseSummary where
  name : String
  boost : ℚ
  effectiveness : ℚ
  cost : ℚ
  deriving DecidableEq

/-- The mutation block of the /attack endpoint before checkGameEnd:
deduct the cost, apply the damage with roll r (band 0.8 + r times 0.4,
clamped at MIN_SECURITY), record the move, hand the turn to the
defender, then the inline turn processing (turn counter, attacker
regeneration, security decay). -/
def applyAttackPre (gs : GameState) (attack : Move) (r : ℚ) : GameState :=
  let gs1 := { gs with attacker := { gs.attacker with resources := gs.attacker.resources - attack.cost } }
  let eff := attack.effectiveness * (4/5 + r * (2/5))
  let sec2 := max MIN_SECURITY (gs1.network.security_level - attack.damage * eff)
  let gs2 := { gs1 with network := { security_level := sec2 } }
  let gs3 := { gs2 with
    attacker := { gs2.attacker with lastMove := some attack, moves := gs2.attacker.moves ++ [attack] },
    currentPlayer := "defender" }
  let gs4 := { gs3 with
    turn := gs3.turn + 1,
    attacker := { gs3.attacker with resources := gs3.attacker.resources + TURN_RESOURCES_attacker } }
  let sec5 := max MIN_SECURITY (gs4.network.security_level - SECURITY_DECAY_RATE)
  { gs4 with network := { security_level := sec5 } }

/-- The full live attack application: the mutation block followed by
checkGameEnd. -/
def applyAttackCore (gs : GameState) (attack : Move) (r : ℚ) : GameState :=
  checkGameEnd (applyAttackPre gs attack r)

/-- The /attack endpoint: guards (game over, wrong turn, unknown id,
insufficient resources), then the live attack application with roll r.
Returns the post-request live state together with the response. -/
def attackRoute (atkC : List Move) (attackId : ℕ) (r : ℚ) (gs : GameState) :
    GameState × Except ApiError GameState :=
  if gs.gameOver then (gs, .error .gameEnded)
  else if gs.currentPlayer ≠ "attacker" then (gs, .error .notYourTurn)
  else
    match atkC.find? (fun a => decide (a.id = attackId)) with
    | none => (gs, .error .invalidAttack)
    | some attack =>
      if gs.attacker.resources < attack.cost then (gs, .error .notEnoughResources)
      else
        let gs6 := applyAttackCore gs attack r
        (gs6, .ok gs6)

/-- The mutation block of the /defend endpoint before checkGameEnd:
deduct the cost, raise security by security_boost times effectiveness
times (0.9 + r times 0.2) (clamped at MAX_SECURITY), record the move,
hand the turn to the attacker, then the inline turn processing (turn
counter, defender regeneration, security decay). -/
def applyDefensePre (gs : GameState) (defense : Move) (r : ℚ) : GameState :=
  let eff := defense.effectiveness * (9/10 + r * (1/5))
  let actualBoost := defense.security_boost * eff
  let gs1 := { gs with defender := { gs.defender with resources := gs.defender.resources - defense.cost } }
  let sec2 := min MAX_SECURITY (gs1.network.security_level + actualBoost)
  let gs2 := { gs1 with network := { security_level := sec2 } }
  let gs3 := { gs2 with
    defender := { gs2.defender with lastMove := some defense, moves := gs2.defender.moves ++ [defense] },
    currentPlayer := "attacker" }
  let gs4 := { gs3 with
    turn := gs3.turn + 1,
    defender := { gs3.defender with resources := gs3.defender.resources + TURN_RESOURCES_defender } }
  let sec5 := max MIN_SECURITY (gs4.network.security_level - SECURITY_DECAY_RATE)
  { gs4 with network := { security_level := sec5 } }

/-- The full live defense application: the mutation block followed by
checkGameEnd, paired with the enhanced defense response. -/
def applyDefenseCore (gs : GameState) (defense : Move) (r : ℚ) : GameState × DefenseSummary :=
  let eff := defense.effectiveness * (9/10 + r * (1/5))
  let actualBoost := defense.security_boost * eff
  (checkGameEnd (applyDefensePre gs defense r),
   { name := defense.name, boost := actualBoost, effectiveness := eff, cost := defense.cost })

/-- The /defend endpoint: guards (game over, wrong turn), AI move choice
via getBestMove on the roll stream ρ, the cannot-defend failure, then
the live defense application with roll r.  Returns the post-request
live state, the post-request engine, and the response. -/
def defendRoute (atkC defC : List Move) (ρ : ℕ → ℚ) (r : ℚ) (ai : AIEngine) (gs : GameState) :
    GameState × AIEngine × Except ApiError (GameState × DefenseSummary) :=
  if gs.gameOver then (gs, ai, .error .gameEnded)
  else if gs.currentPlayer ≠ "defender" then (gs, ai, .error .notYourTurn)
  else
    let gb := EnhancedMinimaxAI.getBestMove atkC defC ρ ai gs
    match gb.1 with
    | none => (gs, gb.2, .error .cannotDefend)
    | some defense =>
      if gs.defender.resources < defense.cost then (gs, gb.2, .error .cannotDefend)
      else
        let res := applyDefenseCore gs defense r
        (res.1, gb.2, .ok res)

/-! Concrete sample data used to instantiate the theorems below: a small
attack, three defenses, and a few states.  The real catalogs live in
data files outside the server source, so these stand for arbitrary
concrete catalog entries. -/

/-- A sample catalog attack: cost 5, damage 20, nominal effectiveness 1. -/
def sampleAttack : Move :=
  { id := 1, name := "Phishing", type := "social", cost := 5, damage := 20,
    security_boost := 0, effectiveness := 1, effective_against := [] }

/-- A sample catalog defense with a large boost: cost 30, boost 60,
nominal effectiveness 1. -/
def bigDefense : Move :=
  { id := 2, name := "Patch", type := "defense", cost := 30, damage := 0,
    security_boost := 60, effectiveness := 1, effective_against := [] }

/-- A sample catalog defense with a tiny boost: cost 10, boost 1/4. -/
def tinyDefense : Move :=
  { id := 3, name := "Scan", type := "defense", cost := 10, damage := 0,
    security_boost := 1/4, effectiveness := 1, effective_against := [] }

/-- A sample catalog defense: cost 10, boost 10, nominal
effectiveness 1/2, countering social attacks. -/
def sampleDefense : Move :=
  { id := 4, name := "Firewall", type := "defense", cost := 10, damage := 0,
    security_boost := 10, effectiveness := 1/2, effective_against := ["social"] }

/-- The initial state with the defender to move. -/
def defenderTurnState : GameState := { initGameState with currentPlayer := "defender" }

/-- The AI engine as constructed by the server: depth 4, empty history. -/
def aiDefault : AIEngine := { depth := 4, defenseHistory := [] }

/-- A fixed roll stream: every Math.random() draw is 0. -/
def zeroRolls : ℕ → ℚ := fun _ => 0

/-- A state whose security level is down to 1/2, defender to move. -/
def lowSecurityState : GameState :=
  { initGameState with currentPlayer := "defender", network := { security_level := 1/2 } }

/-- A finished game (attacker won). -/
def gameOverState : GameState :=
  { initGameState with gameOver := true, winner := some "attacker" }

/-- A drawn-down state: security exactly 50, both sides out of
resources. -/
def exhaustedState : GameState :=
  { initGameState with
    attacker := { resources := 0, lastMove := none, moves := [] },
    defender := { resources := 0, lastMove := none, moves := [] } }

/-! Helper lemmas shared by the claim theorems below. -/

lemma str_att_ne_def : ("attacker" : String) ≠ "defender" := by decide

lemma str_def_ne_att : ("defender" : String) ≠ "attacker" := by decide

lemma checkGameEnd_network (gs : GameState) : (checkGameEnd gs).network = gs.network := by
  unfold checkGameEnd; split_ifs <;> rfl

lemma checkGameEnd_attacker (gs : GameState) : (checkGameEnd gs).attacker = gs.attacker := by
  unfold checkGameEnd; split_ifs <;> rfl

lemma checkGameEnd_defender (gs : GameState) : (checkGameEnd gs).defender = gs.defender := by
  unfold checkGameEnd; split_ifs <;> rfl

lemma checkGameEnd_turn (gs : GameState) : (checkGameEnd gs).turn = gs.turn := by
  unfold checkGameEnd; split_ifs <;> rfl

lemma checkGameEnd_currentPlayer (gs : GameState) : (checkGameEnd gs).currentPlayer = gs.currentPlayer := by
  unfold checkGameEnd; split_ifs <;> rfl

lemma checkGameEnd_gameOver_of_true (gs : GameState) (h : gs.gameOver = true) :
    (checkGameEnd gs).gameOver = true := by
  unfold checkGameEnd; split_ifs <;> simp [h]

lemma checkGameEnd_not_over (gs : GameState)
    (h1 : ¬ gs.network.security_level ≤ MIN_SECURITY)
    (h2 : ¬ MAX_SECURITY ≤ gs.network.security_level)
    (h3 : ¬ (gs.attacker.resources ≤ 0 ∧ gs.defender.resources ≤ 0)) :
    checkGameEnd gs = gs := by
  unfold checkGameEnd; rw [if_neg h1, if_neg h2, if_neg h3]

namespace EnhancedMinimaxAI

lemma processTurn_turn (st : GameState) : (processTurn st).turn = st.turn + 1 := by
  simp only [processTurn, checkGameEnd_turn]
  split_ifs <;> rfl

lemma processTurn_currentPlayer (st : GameState) :
    (processTurn st).currentPlayer = st.currentPlayer := by
  simp only [processTurn, checkGameEnd_currentPlayer]
  split_ifs <;> rfl

lemma processTurn_security (st : GameState) :
    (processTurn st).network.security_level =
      max MIN_SECURITY (st.network.security_level - SECURITY_DECAY_RATE) := by
  simp only [processTurn, checkGameEnd_network]
  split_ifs <;> rfl

lemma processTurn_gameOver_of_true (st : GameState) (h : st.gameOver = true) :
    (processTurn st).gameOver = true := by
  simp only [processTurn]
  apply checkGameEnd_gameOver_of_true
  split_ifs <;> simpa using h

lemma processTurn_attacker_res_of (st : GameState) (h : st.currentPlayer = "defender") :
    (processTurn st).attacker.resources = st.attacker.resources + TURN_RESOURCES_attacker := by
  simp only [processTurn, checkGameEnd_attacker]
  rw [if_pos (by simpa using h)]

lemma processTurn_defender_res_of (st : GameState) (h : st.currentPlayer = "defender") :
    (processTurn st).defender.resources = st.defender.resources := by
  simp only [processTurn, checkGameEnd_defender]
  rw [if_pos (by simpa using h)]

lemma processTurn_defender_res_of_ne (st : GameState) (h : ¬ st.currentPlayer = "defender") :
    (processTurn st).defender.resources = st.defender.resources + TURN_RESOURCES_defender := by
  simp only [processTurn, checkGameEnd_defender]
  rw [if_neg (by simpa using h)]

lemma processTurn_attacker_res_of_ne (st : GameState) (h : ¬ st.currentPlayer = "defender") :
    (processTurn st).attacker.resources = st.attacker.resources := by
  simp only [processTurn, checkGameEnd_attacker]
  rw [if_neg (by simpa using h)]

lemma simulateMove_defense (st : GameState) (move : Move) (r : ℚ) (h : move.type = "defense") :
    (simulateMove st move r).network.security_level =
      max MIN_SECURITY (min MAX_SECURITY
        (st.network.security_level + move.security_boost * (1 + r * (1/5))) - SECURITY_DECAY_RATE) ∧
    (simulateMove st move r).currentPlayer = "attacker" ∧
    (simulateMove st move r).turn = st.turn + 1 ∧
    (simulateMove st move r).defender.resources =
      st.defender.resources - move.cost + TURN_RESOURCES_defender ∧
    (simulateMove st move r).attacker.resources = st.attacker.resources := by
  simp only [simulateMove, if_pos h]
  refine ⟨?_, ?_, ?_, ?_, ?_⟩
  · rw [processTurn_security]
  · rw [processTurn_currentPlayer]
  · rw [processTurn_turn]
  · rw [processTurn_defender_res_of_ne]
    exact str_att_ne_def
  · rw [processTurn_attacker_res_of_ne]
    exact str_att_ne_def

lemma simulateMove_attack (st : GameState) (move : Move) (r : ℚ) (h : ¬ move.type = "defense") :
    (simulateMove st move r).network.security_level =
      max MIN_SECURITY (max MIN_SECURITY
        (st.network.security_level - move.damage * (move.effectiveness * (9/10 + r * (1/5)))) -
        SECURITY_DECAY_RATE) ∧
    (simulateMove st move r).currentPlayer = "defender" ∧
    (simulateMove st move r).turn = st.turn + 1 ∧
    (simulateMove st move r).attacker.resources =
      st.attacker.resources - move.cost + TURN_RESOURCES_attacker ∧
    (simulateMove st move r).defender.resources = st.defender.resources := by
  simp only [simulateMove, if_neg h]
  refine ⟨?_, ?_, ?_, ?_, ?_⟩
  · rw [processTurn_security]
  · rw [processTurn_currentPlayer]
  · rw [processTurn_turn]
  · rw [processTurn_attacker_res_of]
    rfl
  · rw [processTurn_defender_res_of]
    rfl

lemma minimax_gameOver (atkC defC : List Move) (ρ : ℕ → ℚ) (ai : AIEngine)
    (d : ℕ) (st : GameState) (b : Bool) (k : ℕ) (h : st.gameOver = true) :
    minimax atkC defC ρ ai d st b k = (evaluate ai defC st, k) := by
  cases d with
  | zero => rfl
  | succ d => simp [minimax, h]

lemma minimax_minimizing_noAttacks (defC : List Move) (ρ : ℕ → ℚ) (ai : AIEngine)
    (d : ℕ) (st : GameState) (k : ℕ) :
    minimax [] defC ρ ai d st false k = (evaluate ai defC st, k) := by
  cases d with
  | zero => rfl
  | succ d => simp [minimax]

end EnhancedMinimaxAI

lemma applyAttackPre_fields (gs : GameState) (attack : Move) (r : ℚ) :
    (applyAttackPre gs attack r).network.security_level =
      max MIN_SECURITY (max MIN_SECURITY
        (gs.network.security_level - attack.damage * (attack.effectiveness * (4/5 + r * (2/5)))) -
        SECURITY_DECAY_RATE) ∧
    (applyAttackPre gs attack r).currentPlayer = "defender" ∧
    (applyAttackPre gs attack r).turn = gs.turn + 1 ∧
    (applyAttackPre gs attack r).attacker.resources =
      gs.attacker.resources - attack.cost + TURN_RESOURCES_attacker ∧
    (applyAttackPre gs attack r).defender.resources = gs.defender.resources ∧
    (applyAttackPre gs attack r).gameOver = gs.gameOver ∧
    (applyAttackPre gs attack r).winner = gs.winner := by
  simp [applyAttackPre]

lemma applyDefensePre_fields (gs : GameState) (defense : Move) (r : ℚ) :
    (applyDefensePre gs defense r).network.security_level =
      max MIN_SECURITY (min MAX_SECURITY
        (gs.network.security_level + defense.security_boost * (defense.effectiveness * (9/10 + r * (1/5)))) -
        SECURITY_DECAY_RATE) ∧
    (applyDefensePre gs defense r).currentPlayer = "attacker" ∧
    (applyDefensePre gs defense r).turn = gs.turn + 1 ∧
    (applyDefensePre gs defense r).defender.resources =
      gs.defender.resources - defense.cost + TURN_RESOURCES_defender ∧
    (applyDefensePre gs defense r).attacker.resources = gs.attacker.resources ∧
    (applyDefensePre gs defense r).gameOver = gs.gameOver ∧
    (applyDefensePre gs defense r).winner = gs.winner := by
  simp [applyDefensePre]

lemma applyDefenseCore_summary (gs : GameState) (defense : Move) (r : ℚ) :
    (applyDefenseCore gs defense r).2 =
      { name := defense.name,
        boost := defense.security_boost * (defense.effectiveness * (9/10 + r * (1/5))),
        effectiveness := defense.effectiveness * (9/10 + r * (1/5)),
        cost := defense.cost } := rfl

lemma attackRoute_ok (atkC : List Move) (attackId : ℕ) (r : ℚ) (gs gs' : GameState)
    (h : (attackRoute atkC attackId r gs).2 = .ok gs') :
    gs.gameOver = false ∧ gs.currentPlayer = "attacker" ∧
    (attackRoute atkC attackId r gs).1 = gs' ∧
    ∃ attack : Move, atkC.find? (fun a => decide (a.id = attackId)) = some attack ∧
      ¬ gs.attacker.resources < attack.cost ∧ gs' = applyAttackCore gs attack r := by
  by_cases h1 : gs.gameOver = true
  · simp [attackRoute, h1] at h
  by_cases h2 : gs.currentPlayer = "attacker"
  case neg => simp [attackRoute, h1, h2] at h
  rcases hf : atkC.find? (fun a => decide (a.id = attackId)) with _ | attack
  · simp [attackRoute, h1, h2, hf] at h
  by_cases h3 : gs.attacker.resources < attack.cost
  · simp [attackRoute, h1, h2, hf, h3] at h
  have hroute : attackRoute atkC attackId r gs =
      (applyAttackCore gs attack r, .ok (applyAttackCore gs attack r)) := by
    simp [attackRoute, h1, h2, hf, h3]
  rw [hroute] at h
  simp only [Except.ok.injEq] at h
  exact ⟨by simp [h1], h2, by rw [hroute]; simpa using h, attack, hf, h3, h.symm⟩

lemma defendRoute_ok (atkC defC : List Move) (ρ : ℕ → ℚ) (r : ℚ) (ai : AIEngine)
    (gs gs' : GameState) (sum : DefenseSummary)
    (h : (defendRoute atkC defC ρ r ai gs).2.2 = .ok (gs', sum)) :
    gs.gameOver = false ∧ gs.currentPlayer = "defender" ∧
    (defendRoute atkC defC ρ r ai gs).1 = gs' ∧
    ∃ defense : Move, (EnhancedMinimaxAI.getBestMove atkC defC ρ ai gs).1 = some defense ∧
      ¬ gs.defender.resources < defense.cost ∧ (gs', sum) = applyDefenseCore gs defense r := by
  by_cases h1 : gs.gameOver = true
  · simp [defendRoute, h1] at h
  by_cases h2 : gs.currentPlayer = "defender"
  case neg => simp [defendRoute, h1, h2] at h
  rcases hf : (EnhancedMinimaxAI.getBestMove atkC defC ρ ai gs).1 with _ | defense
  · simp [defendRoute, h1, h2, hf] at h
  by_cases h3 : gs.defender.resources < defense.cost
  · simp [defendRoute, h1, h2, hf, h3] at h
  have hroute : defendRoute atkC defC ρ r ai gs =
      ((applyDefenseCore gs defense r).1, (EnhancedMinimaxAI.getBestMove atkC defC ρ ai gs).2,
        .ok (applyDefenseCore gs defense r)) := by
    simp [defendRoute, h1, h2, hf, h3]
  rw [hroute] at h
  simp only [Except.ok.injEq] at h
  refine ⟨by simp [h1], h2, ?_, defense, by simp [hf], h3, h.symm⟩
  rw [hroute]
  rw [h]

namespace EnhancedMinimaxAI

lemma rootStep_foldl_invariant (l : List (Move × EScore)) :
    ∀ acc : Option Move × EScore, (acc.1 = none → acc.2 = ⊥) →
      (acc.2 ≤ (l.foldl rootStep acc).2) ∧
      ((l.foldl rootStep acc).1 = none → acc.1 = none ∧ ∀ p ∈ l, p.2 = (⊥ : EScore)) ∧
      (∀ p ∈ l, p.2 ≤ (l.foldl rootStep acc).2) ∧
      (∀ d : Move, (l.foldl rootStep acc).1 = some d →
        (l.foldl rootStep acc) = acc ∨ ((d, (l.foldl rootStep acc).2) ∈ l)) ∧
      (∀ b : Move, acc.1 = some b → (l.foldl rootStep acc).2 = acc.2 →
        ∃ d : Move, (l.foldl rootStep acc).1 = some d ∧ d.cost ≤ b.cost) ∧
      (acc.1 = none → ∀ d : Move, (l.foldl rootStep acc).1 = some d →
        acc.2 < (l.foldl rootStep acc).2) ∧
      (∀ d : Move, (l.foldl rootStep acc).1 = some d →
        ∀ p ∈ l, p.2 = (l.foldl rootStep acc).2 → d.cost ≤ p.1.cost) := by
  induction l with
  | nil =>
    intro acc hacc
    refine ⟨le_refl _, fun h => ⟨h, by simp⟩, by simp, fun d _ => Or.inl rfl,
      fun b hb _ => ⟨b, hb, le_refl _⟩, fun h0 d hd => ?_, by simp⟩
    have hd2 : acc.1 = some d := hd
    rw [h0] at hd2
    cases hd2
  | cons c t ih =>
    intro acc hacc
    simp only [List.foldl_cons]
    rcases c with ⟨cm, cs⟩
    rcases acc with ⟨ob, bs⟩
    cases ob with
    | none =>
      have hbs : bs = ⊥ := hacc rfl
      subst hbs
      by_cases hlt : (⊥ : EScore) < cs
      · have hstep : rootStep (none, (⊥ : EScore)) (cm, cs) = (some cm, cs) := by
          simp [rootStep, hlt]
        rw [hstep]
        obtain ⟨ih1, ih2, ih3, ih4, ih5, ih6, ih7⟩ :=
          ih (some cm, cs) (by simp)
        refine ⟨bot_le, ?_, ?_, ?_, ?_, ?_, ?_⟩
        · intro hres
          rcases ih2 hres with ⟨hnone, _⟩
          cases hnone
        · intro p hp
          rcases List.mem_cons.mp hp with rfl | hp
          · exact ih1
          · exact ih3 p hp
        · intro d hd
          rcases ih4 d hd with heq | hmem
          · right
            have hd1 : some cm = some d := by rw [← hd, heq]
            have hd2 : (t.foldl rootStep (some cm, cs)).2 = cs := by rw [heq]
            injection hd1 with hcm
            rw [hd2, ← hcm]
            exact List.mem_cons_self _ _
          · exact Or.inr (List.mem_cons_of_mem _ hmem)
        · intro b hb
          cases hb
        · intro _ d hd
          exact lt_of_lt_of_le hlt ih1
        · intro d hd p hp hps
          rcases List.mem_cons.mp hp with rfl | hp
          · rcases ih5 cm rfl (by rw [← hps]) with ⟨d', hd', hcost⟩
            rw [hd] at hd'
            injection hd' with he
            rw [he]
            exact hcost
          · exact ih7 d hd p hp hps
      · have hcs : cs = ⊥ := le_bot_iff.mp (not_lt.mp hlt)
        have hstep : rootStep (none, (⊥ : EScore)) (cm, cs) = (none, ⊥) := by
          simp [rootStep, hlt]
        rw [hstep]
        obtain ⟨ih1, ih2, ih3, ih4, ih5, ih6, ih7⟩ :=
          ih (none, ⊥) (fun _ => rfl)
        refine ⟨ih1, ?_, ?_, ?_, ?_, ?_, ?_⟩
        · intro hres
          rcases ih2 hres with ⟨_, hall⟩
          refine ⟨rfl, ?_⟩
          intro p hp
          rcases List.mem_cons.mp hp with rfl | hp
          · exact hcs
          · exact hall p hp
        · intro p hp
          rcases List.mem_cons.mp hp with rfl | hp
          · rw [hcs]
            exact bot_le
          · exact ih3 p hp
        · intro d hd
          rcases ih4 d hd with heq | hmem
          · exact Or.inl heq
          · exact Or.inr (List.mem_cons_of_mem _ hmem)
        · intro b hb
          cases hb
        · intro _ d hd
          exact ih6 rfl d hd
        · intro d hd p hp hps
          rcases List.mem_cons.mp hp with rfl | hp
          · exfalso
            have hb2 : (⊥ : EScore) < (t.foldl rootStep (none, ⊥)).2 := ih6 rfl d hd
            rw [← hps, hcs] at hb2
            exact lt_irrefl _ hb2
          · exact ih7 d hd p hp hps
    | some b0 =>
      by_cases hcond : bs < cs ∨ (cs = bs ∧ cm.cost < b0.cost)
      · have hstep : rootStep (some b0, bs) (cm, cs) = (some cm, cs) := by
          simp only [rootStep]
          rw [if_pos hcond]
        rw [hstep]
        obtain ⟨ih1, ih2, ih3, ih4, ih5, ih6, ih7⟩ :=
          ih (some cm, cs) (by simp)
        have hble : bs ≤ cs := by
          rcases hcond with h | ⟨h, _⟩
          · exact le_of_lt h
          · exact le_of_eq h.symm
        refine ⟨le_trans hble ih1, ?_, ?_, ?_, ?_, ?_, ?_⟩
        · intro hres
          rcases ih2 hres with ⟨hnone, _⟩
          cases hnone
        · intro p hp
          rcases List.mem_cons.mp hp with rfl | hp
          · exact ih1
          · exact ih3 p hp
        · intro d hd
          rcases ih4 d hd with heq | hmem
          · right
            have hd1 : some cm = some d := by rw [← hd, heq]
            have hd2 : (t.foldl rootStep (some cm, cs)).2 = cs := by rw [heq]
            injection hd1 with hcm
            rw [hd2, ← hcm]
            exact List.mem_cons_self _ _
          · exact Or.inr (List.mem_cons_of_mem _ hmem)
        · intro b hb heq2
          injection hb with hb0
          subst hb0
          rcases hcond with hlt | ⟨hcseq, hcost⟩
          · exfalso
            have : bs < (t.foldl rootStep (some cm, cs)).2 := lt_of_lt_of_le hlt ih1
            rw [heq2] at this
            exact lt_irrefl _ this
          · rcases ih5 cm rfl (by rw [heq2, ← hcseq]) with ⟨d, hd, hdc⟩
            exact ⟨d, hd, le_trans hdc (le_of_lt hcost)⟩
        · intro h0
          cases h0
        · intro d hd p hp hps
          rcases List.mem_cons.mp hp with rfl | hp
          · rcases ih5 cm rfl (by rw [← hps]) with ⟨d', hd', hcost⟩
            rw [hd] at hd'
            injection hd' with he
            rw [he]
            exact hcost
          · exact ih7 d hd p hp hps
      · have hstep : rootStep (some b0, bs) (cm, cs) = (some b0, bs) := by
          simp only [rootStep]
          rw [if_neg hcond]
        rw [hstep]
        obtain ⟨ih1, ih2, ih3, ih4, ih5, ih6, ih7⟩ :=
          ih (some b0, bs) (by simp)
        have hnlt : ¬ bs < cs := fun hh => hcond (Or.inl hh)
        have hcsle : cs ≤ bs := not_lt.mp hnlt
        have himp : cs = bs → b0.cost ≤ cm.cost := fun he =>
          not_lt.mp (fun hh => hcond (Or.inr ⟨he, hh⟩))
        refine ⟨ih1, ?_, ?_, ?_, ?_, ?_, ?_⟩
        · intro hres
          rcases ih2 hres with ⟨hnone, _⟩
          cases hnone
        · intro p hp
          rcases List.mem_cons.mp hp with rfl | hp
          · exact le_trans hcsle ih1
          · exact ih3 p hp
        · intro d hd
          rcases ih4 d hd with heq | hmem
          · exact Or.inl heq
          · exact Or.inr (List.mem_cons_of_mem _ hmem)
        · intro b hb heq2
          injection hb with hb0
          subst hb0
          exact ih5 _ rfl heq2
        · intro h0
          cases h0
        · intro d hd p hp hps
          rcases List.mem_cons.mp hp with rfl | hp
          · have hr2 : (t.foldl rootStep (some b0, bs)).2 = bs := by
              apply le_antisymm
              · rw [← hps]
                exact hcsle
              · exact ih1
            have hcb : cs = bs := by
              have hps2 : cs = (List.foldl rootStep (some b0, bs) t).2 := hps
              rw [hps2, hr2]
            rcases ih5 b0 rfl hr2 with ⟨d', hd', hcost⟩
            rw [hd] at hd'
            injection hd' with he
            rw [he]
            exact le_trans hcost (himp hcb)
          · exact ih7 d hd p hp hps

lemma rootScoreStep_foldl_mem (atkC defC : List Move) (ρ : ℕ → ℚ) (ai : AIEngine)
    (state : GameState) (avail : List Move) :
    ∀ (acc : List (Move × EScore) × ℕ) (p : Move × EScore),
      p ∈ (avail.foldl (rootScoreStep atkC defC ρ ai state) acc).1 →
        p ∈ acc.1 ∨ p.1 ∈ avail := by
  induction avail with
  | nil =>
    intro acc p hp
    exact Or.inl (by simpa using hp)
  | cons m t ih =>
    intro acc p hp
    simp only [List.foldl_cons] at hp
    rcases ih (rootScoreStep atkC defC ρ ai state acc m) p hp with h | h
    · simp only [rootScoreStep] at h
      rcases List.mem_append.mp h with h' | h'
      · exact Or.inl h'
      · right
        have hpm := List.mem_singleton.mp h'
        rw [hpm]
        exact List.mem_cons_self _ _
    · exact Or.inr (List.mem_cons_of_mem _ h)

lemma rootScores_mem (atkC defC : List Move) (ρ : ℕ → ℚ) (ai : AIEngine)
    (state : GameState) (avail : List Move) (p : Move × EScore)
    (hp : p ∈ rootScores atkC defC ρ ai state avail) : p.1 ∈ avail := by
  rcases rootScoreStep_foldl_mem atkC defC ρ ai state avail ([], 0) p hp with h | h
  · simp at h
  · exact h

lemma getBestMove_fst (atkC defC : List Move) (ρ : ℕ → ℚ) (ai : AIEngine) (gs : GameState)
    (hne : (defC.filter (fun d => decide (d.cost ≤ gs.defender.resources))).isEmpty = false) :
    (getBestMove atkC defC ρ ai gs).1 =
      ((rootScores atkC defC ρ ai gs
          (defC.filter (fun d => decide (d.cost ≤ gs.defender.resources)))).foldl
        rootStep (none, (⊥ : EScore))).1 := by
  simp only [getBestMove, hne, Bool.false_eq_true, if_false]
  rcases hb : ((rootScores atkC defC ρ ai gs
      (defC.filter (fun d => decide (d.cost ≤ gs.defender.resources)))).foldl
    rootStep (none, (⊥ : EScore))).1 with _ | bm
  · simp [hb]
  · simp [hb]

lemma getBestMove_some_mem (atkC defC : List Move) (ρ : ℕ → ℚ) (ai : AIEngine)
    (gs : GameState) (d : Move) (h : (getBestMove atkC defC ρ ai gs).1 = some d) :
    d ∈ defC ∧ d.cost ≤ gs.defender.resources := by
  by_cases he : (defC.filter (fun d => decide (d.cost ≤ gs.defender.resources))).isEmpty = true
  · rw [getBestMove, if_pos he] at h
    cases h
  · have hne : (defC.filter (fun d => decide (d.cost ≤ gs.defender.resources))).isEmpty = false :=
      Bool.not_eq_true _ |>.mp he
    rw [getBestMove_fst atkC defC ρ ai gs hne] at h
    obtain ⟨_, _, _, inv4, _, _, _⟩ :=
      rootStep_foldl_invariant
        (rootScores atkC defC ρ ai gs
          (defC.filter (fun d => decide (d.cost ≤ gs.defender.resources))))
        (none, (⊥ : EScore)) (fun _ => rfl)
    rcases inv4 d h with heq | hmem
    · rw [heq] at h
      cases h
    · have hmem2 := rootScores_mem atkC defC ρ ai gs _ _ hmem
      have hf := List.mem_filter.mp hmem2
      exact ⟨hf.1, of_decide_eq_true hf.2⟩

end EnhancedMinimaxAI

/-! Concrete evaluations of the embedded engine on the sample data,
used by the witnesses and counterexamples below. -/

lemma str_social_ne_defense : ("social" : String) ≠ "defense" := by decide

/-- The literal state produced by a successful /attack with
sampleAttack and roll 0 from the initial state. -/
def attackedState : GameState :=
  { turn := 1,
    attacker := { resources := 105, lastMove := some sampleAttack, moves := [sampleAttack] },
    defender := { resources := 100, lastMove := none, moves := [] },
    network := { security_level := 33 },
    gameOver := false, winner := none, currentPlayer := "defender" }

/-- The literal state produced by a successful /defend with bigDefense
and roll 0 from the defender-to-move initial state. -/
def defendedState : GameState :=
  { turn := 1,
    attacker := { resources := 100, lastMove := none, moves := [] },
    defender := { resources := 85, lastMove := some bigDefense, moves := [bigDefense] },
    network := { security_level := 99 },
    gameOver := false, winner := none, currentPlayer := "attacker" }

/-- The /defend response produced alongside defendedState. -/
def bigSummary : DefenseSummary :=
  { name := "Patch", boost := 54, effectiveness := 9/10, cost := 30 }

lemma attackRoute_sample_eval :
    attackRoute [sampleAttack] 1 0 initGameState = (attackedState, .ok attackedState) := by
  norm_num [attackRoute, applyAttackCore, applyAttackPre, checkGameEnd,
    initGameState, sampleAttack, attackedState, List.find?,
    MAX_SECURITY, MIN_SECURITY, SECURITY_DECAY_RATE, TURN_RESOURCES_attacker,
    TURN_RESOURCES_defender, INITIAL_RESOURCES, min_def, max_def]

lemma getBestMove_big_eval :
    EnhancedMinimaxAI.getBestMove [] [bigDefense] zeroRolls aiDefault defenderTurnState =
      (some bigDefense, { depth := 4, defenseHistory := [2] }) := by
  norm_num [EnhancedMinimaxAI.getBestMove, EnhancedMinimaxAI.rootScores,
    EnhancedMinimaxAI.rootScoreStep, EnhancedMinimaxAI.rootStep,
    EnhancedMinimaxAI.minimax_gameOver, EnhancedMinimaxAI.minimax_minimizing_noAttacks,
    EnhancedMinimaxAI.simulateMove, EnhancedMinimaxAI.processTurn,
    EnhancedMinimaxAI.evaluate, EnhancedMinimaxAI.calculateDefenseEffectiveness,
    checkGameEnd, toScore, str_att_ne_def, str_def_ne_att,
    defenderTurnState, initGameState, bigDefense, aiDefault, zeroRolls,
    MAX_SECURITY, MIN_SECURITY, SECURITY_DECAY_RATE, TURN_RESOURCES_attacker,
    TURN_RESOURCES_defender, INITIAL_RESOURCES,
    List.filter_cons, List.filter_nil, List.foldl_cons, List.foldl_nil,
    List.isEmpty_cons, List.isEmpty_nil, WithBot.bot_add, WithBot.bot_lt_coe,
    lt_self_iff_false, min_def, max_def]

lemma defendRoute_big_eval :
    defendRoute [] [bigDefense] zeroRolls 0 aiDefault defenderTurnState =
      (defendedState, { depth := 4, defenseHistory := [2] }, .ok (defendedState, bigSummary)) := by
  simp only [defendRoute, getBestMove_big_eval]
  norm_num [applyDefenseCore, applyDefensePre, checkGameEnd,
    defenderTurnState, initGameState, bigDefense, aiDefault, defendedState, bigSummary,
    MAX_SECURITY, MIN_SECURITY, SECURITY_DECAY_RATE, TURN_RESOURCES_attacker,
    TURN_RESOURCES_defender, INITIAL_RESOURCES, min_def, max_def]

lemma getBestMove_tiny_eval :
    EnhancedMinimaxAI.getBestMove [] [tinyDefense] zeroRolls aiDefault lowSecurityState =
      (none, aiDefault) := by
  norm_num [EnhancedMinimaxAI.getBestMove, EnhancedMinimaxAI.rootScores,
    EnhancedMinimaxAI.rootScoreStep, EnhancedMinimaxAI.rootStep,
    EnhancedMinimaxAI.minimax_gameOver, EnhancedMinimaxAI.minimax_minimizing_noAttacks,
    EnhancedMinimaxAI.simulateMove, EnhancedMinimaxAI.processTurn,
    EnhancedMinimaxAI.evaluate, EnhancedMinimaxAI.calculateDefenseEffectiveness,
    checkGameEnd, toScore, str_att_ne_def, str_def_ne_att,
    lowSecurityState, initGameState, tinyDefense, aiDefault, zeroRolls,
    MAX_SECURITY, MIN_SECURITY, SECURITY_DECAY_RATE, TURN_RESOURCES_attacker,
    TURN_RESOURCES_defender, INITIAL_RESOURCES,
    List.filter_cons, List.filter_nil, List.foldl_cons, List.foldl_nil,
    List.isEmpty_cons, List.isEmpty_nil, WithBot.bot_add, WithBot.bot_lt_coe,
    lt_self_iff_false, min_def, max_def]

lemma simulateMove_sampleDefense_eval :
    (EnhancedMinimaxAI.simulateMove defenderTurnState sampleDefense 0).network.security_level = 59 := by
  norm_num [EnhancedMinimaxAI.simulateMove, EnhancedMinimaxAI.processTurn, checkGameEnd,
    defenderTurnState, initGameState, sampleDefense, str_att_ne_def,
    MAX_SECURITY, MIN_SECURITY, SECURITY_DECAY_RATE, TURN_RESOURCES_attacker,
    TURN_RESOURCES_defender, INITIAL_RESOURCES, min_def, max_def]

lemma simulateMove_sampleAttack_eval :
    (EnhancedMinimaxAI.simulateMove initGameState sampleAttack 0).network.security_level = 31 := by
  norm_num [EnhancedMinimaxAI.simulateMove, EnhancedMinimaxAI.processTurn, checkGameEnd,
    initGameState, sampleAttack, str_att_ne_def, str_social_ne_defense,
    MAX_SECURITY, MIN_SECURITY, SECURITY_DECAY_RATE, TURN_RESOURCES_attacker,
    TURN_RESOURCES_defender, INITIAL_RESOURCES, min_def, max_def]

/-! Claim theorems. -/

/-- C8: the evaluation function is a pure, deterministic function of the
game state and the move catalogs.  In this embedding evaluate is a
function of the engine object, the defense catalog and the state; it
takes no roll argument (mirroring the absence of Math.random in the
source method), so it is deterministic by construction, and this
theorem states that it is independent of the engine objects mutable
cross-call fields (depth, defenseHistory): two engines with arbitrary
distinct histories score equal states identically. -/
theorem C8_evaluate_pure (defC : List Move) (a1 a2 : AIEngine) (st : GameState) :
    EnhancedMinimaxAI.evaluate a1 defC st = EnhancedMinimaxAI.evaluate a2 defC st := rfl

/-- C5: whenever gameOver is true, both endpoints fail with the
game-ended error, returning the live state untouched, and no operation
other than new-game initialization ever clears gameOver: checkGameEnd,
processTurn and simulateMove all preserve gameOver = true, while the
fresh state installed by /init has gameOver = false. -/
theorem C5_gameOver_absorbing (atkC defC : List Move) (ρ : ℕ → ℚ) (r r2 : ℚ)
    (ai : AIEngine) (attackId : ℕ) (m : Move) (gs : GameState) (h : gs.gameOver = true) :
    attackRoute atkC attackId r gs = (gs, .error .gameEnded) ∧
    defendRoute atkC defC ρ r2 ai gs = (gs, ai, .error .gameEnded) ∧
    (checkGameEnd gs).gameOver = true ∧
    (EnhancedMinimaxAI.processTurn gs).gameOver = true ∧
    (EnhancedMinimaxAI.simulateMove gs m r).gameOver = true ∧
    initGameState.gameOver = false := by
  refine ⟨?_, ?_, checkGameEnd_gameOver_of_true gs h,
    EnhancedMinimaxAI.processTurn_gameOver_of_true gs h, ?_, rfl⟩
  · rw [attackRoute, if_pos h]
  · rw [defendRoute, if_pos h]
  · rw [EnhancedMinimaxAI.simulateMove]
    split_ifs <;> exact EnhancedMinimaxAI.processTurn_gameOver_of_true _ h

theorem C5_gameOver_absorbing_witness :
    gameOverState.gameOver = true ∧
    attackRoute [sampleAttack] 1 0 gameOverState = (gameOverState, .error .gameEnded) ∧
    defendRoute [sampleAttack] [bigDefense] zeroRolls 0 aiDefault gameOverState =
      (gameOverState, aiDefault, .error .gameEnded) ∧
    (checkGameEnd gameOverState).gameOver = true ∧
    (EnhancedMinimaxAI.processTurn gameOverState).gameOver = true ∧
    (EnhancedMinimaxAI.simulateMove gameOverState sampleDefense 0).gameOver = true ∧
    initGameState.gameOver = false := by
  have h := C5_gameOver_absorbing [sampleAttack] [bigDefense] zeroRolls 0 0 aiDefault 1
    sampleDefense gameOverState rfl
  exact ⟨rfl, h.1, h.2.1, h.2.2.1, h.2.2.2.1, h.2.2.2.2.1, h.2.2.2.2.2⟩

/-- C6: terminal evaluation (checkGameEnd, and the identical inline
block of processTurn) checks in order: security at or below
MIN_SECURITY makes the attacker the winner; otherwise security at or
above MAX_SECURITY makes the defender the winner; otherwise, when both
actors resources are at or below 0, the winner is the defender exactly
when security is at or above 50 - in particular at exactly 50 the
defender wins. -/
theorem C6_terminal_order (gs : GameState) :
    (gs.network.security_level ≤ MIN_SECURITY →
      (checkGameEnd gs).gameOver = true ∧ (checkGameEnd gs).winner = some "attacker") ∧
    (¬ gs.network.security_level ≤ MIN_SECURITY → MAX_SECURITY ≤ gs.network.security_level →
      (checkGameEnd gs).gameOver = true ∧ (checkGameEnd gs).winner = some "defender") ∧
    (¬ gs.network.security_level ≤ MIN_SECURITY → ¬ MAX_SECURITY ≤ gs.network.security_level →
      gs.attacker.resources ≤ 0 → gs.defender.resources ≤ 0 →
      (checkGameEnd gs).gameOver = true ∧
      (checkGameEnd gs).winner =
        some (if 50 ≤ gs.network.security_level then "defender" else "attacker")) ∧
    (gs.network.security_level = 50 → gs.attacker.resources ≤ 0 → gs.defender.resources ≤ 0 →
      (checkGameEnd gs).gameOver = true ∧ (checkGameEnd gs).winner = some "defender") := by
  refine ⟨?_, ?_, ?_, ?_⟩
  · intro h1
    rw [checkGameEnd, if_pos h1]
    exact ⟨rfl, rfl⟩
  · intro h1 h2
    rw [checkGameEnd, if_neg h1, if_pos h2]
    exact ⟨rfl, rfl⟩
  · intro h1 h2 ha hd
    rw [checkGameEnd, if_neg h1, if_neg h2, if_pos ⟨ha, hd⟩]
    exact ⟨rfl, rfl⟩
  · intro h50 ha hd
    have h1 : ¬ gs.network.security_level ≤ MIN_SECURITY := by
      rw [h50]; norm_num [MIN_SECURITY]
    have h2 : ¬ MAX_SECURITY ≤ gs.network.security_level := by
      rw [h50]; norm_num [MAX_SECURITY]
    rw [checkGameEnd, if_neg h1, if_neg h2, if_pos ⟨ha, hd⟩]
    refine ⟨rfl, ?_⟩
    rw [h50]
    norm_num

theorem C6_terminal_order_witness :
    exhaustedState.network.security_level = 50 ∧
    exhaustedState.attacker.resources ≤ 0 ∧ exhaustedState.defender.resources ≤ 0 ∧
    (checkGameEnd exhaustedState).gameOver = true ∧
    (checkGameEnd exhaustedState).winner = some "defender" := by
  have h := (C6_terminal_order exhaustedState).2.2.2 rfl (le_refl 0) (le_refl 0)
  exact ⟨rfl, le_refl 0, le_refl 0, h.1, h.2⟩

/-- C9: every successfully applied move flips currentPlayer to the
opposite side and increments the turn counter by exactly one: a search
simulateMove applied when the stated player is to move, a successful
/attack, and a successful /defend all hand the turn to the other side
with turn + 1. -/
theorem C9_alternation (atkC atkC2 defC : List Move) (ρ : ℕ → ℚ) (r r2 r3 r4 : ℚ) (ai : AIEngine)
    (attackId : ℕ) (m m2 : Move) (gsd gsa gsA gsD gs1 gs2 : GameState) (sum : DefenseSummary) :
    (m.type = "defense" → gsd.currentPlayer = "defender" →
      (EnhancedMinimaxAI.simulateMove gsd m r).currentPlayer = "attacker" ∧
      (EnhancedMinimaxAI.simulateMove gsd m r).turn = gsd.turn + 1) ∧
    (¬ m2.type = "defense" → gsa.currentPlayer = "attacker" →
      (EnhancedMinimaxAI.simulateMove gsa m2 r2).currentPlayer = "defender" ∧
      (EnhancedMinimaxAI.simulateMove gsa m2 r2).turn = gsa.turn + 1) ∧
    ((attackRoute atkC attackId r3 gsA).2 = .ok gs1 →
      gsA.currentPlayer = "attacker" ∧ gs1.currentPlayer = "defender" ∧
      gs1.turn = gsA.turn + 1) ∧
    ((defendRoute atkC2 defC ρ r4 ai gsD).2.2 = .ok (gs2, sum) →
      gsD.currentPlayer = "defender" ∧ gs2.currentPlayer = "attacker" ∧
      gs2.turn = gsD.turn + 1) := by
  refine ⟨?_, ?_, ?_, ?_⟩
  · intro hm _
    obtain ⟨_, h2, h3, _, _⟩ := EnhancedMinimaxAI.simulateMove_defense gsd m r hm
    exact ⟨h2, h3⟩
  · intro hm _
    obtain ⟨_, h2, h3, _, _⟩ := EnhancedMinimaxAI.simulateMove_attack gsa m2 r2 hm
    exact ⟨h2, h3⟩
  · intro h
    obtain ⟨_, hcp, _, attack, _, _, hgs⟩ := attackRoute_ok atkC attackId r3 gsA gs1 h
    obtain ⟨_, hc, ht, _, _, _, _⟩ := applyAttackPre_fields gsA attack r3
    refine ⟨hcp, ?_, ?_⟩
    · rw [hgs, applyAttackCore, checkGameEnd_currentPlayer, hc]
    · rw [hgs, applyAttackCore, checkGameEnd_turn, ht]
  · intro h
    obtain ⟨_, hcp, _, defense, _, _, hgs⟩ := defendRoute_ok atkC2 defC ρ r4 ai gsD gs2 sum h
    have hgs2 : gs2 = checkGameEnd (applyDefensePre gsD defense r4) :=
      congrArg Prod.fst hgs
    obtain ⟨_, hc, ht, _, _, _, _⟩ := applyDefensePre_fields gsD defense r4
    refine ⟨hcp, ?_, ?_⟩
    · rw [hgs2, checkGameEnd_currentPlayer, hc]
    · rw [hgs2, checkGameEnd_turn, ht]

theorem C9_alternation_witness :
    sampleDefense.type = "defense" ∧ defenderTurnState.currentPlayer = "defender" ∧
    ((EnhancedMinimaxAI.simulateMove defenderTurnState sampleDefense 0).currentPlayer = "attacker" ∧
      (EnhancedMinimaxAI.simulateMove defenderTurnState sampleDefense 0).turn =
        defenderTurnState.turn + 1) ∧
    (¬ sampleAttack.type = "defense") ∧ initGameState.currentPlayer = "attacker" ∧
    ((EnhancedMinimaxAI.simulateMove initGameState sampleAttack 0).currentPlayer = "defender" ∧
      (EnhancedMinimaxAI.simulateMove initGameState sampleAttack 0).turn = initGameState.turn + 1) ∧
    (initGameState.currentPlayer = "attacker" ∧ attackedState.currentPlayer = "defender" ∧
      attackedState.turn = initGameState.turn + 1) ∧
    (defenderTurnState.currentPlayer = "defender" ∧ defendedState.currentPlayer = "attacker" ∧
      defendedState.turn = defenderTurnState.turn + 1) := by
  have h := C9_alternation [sampleAttack] [] [bigDefense] zeroRolls 0 0 0 0 aiDefault 1
    sampleDefense sampleAttack defenderTurnState initGameState initGameState defenderTurnState
    attackedState defendedState bigSummary
  have hde : ¬ sampleAttack.type = "defense" := str_social_ne_defense
  refine ⟨rfl, rfl, h.1 rfl rfl, hde, rfl, h.2.1 hde rfl, ?_, ?_⟩
  · exact h.2.2.1 (by rw [attackRoute_sample_eval])
  · exact h.2.2.2 (by rw [defendRoute_big_eval])

/-- C10: whenever /attack or /defend returns any documented error, the
live game state is left completely unchanged by that request: the
post-request state equals the pre-request state (the engine rolling
history is not part of the game state). -/
theorem C10_error_leaves_state (atkC defC : List Move) (ρ : ℕ → ℚ) (r r2 : ℚ)
    (ai : AIEngine) (attackId : ℕ) (gsA gsD : GameState) (e e2 : ApiError) :
    ((attackRoute atkC attackId r gsA).2 = .error e → (attackRoute atkC attackId r gsA).1 = gsA) ∧
    ((defendRoute atkC defC ρ r2 ai gsD).2.2 = .error e2 →
      (defendRoute atkC defC ρ r2 ai gsD).1 = gsD) := by
  constructor
  · intro h
    by_cases h1 : gsA.gameOver = true
    · simp [attackRoute, h1]
    by_cases h2 : gsA.currentPlayer = "attacker"
    case neg => simp [attackRoute, h1, h2]
    rcases hf : atkC.find? (fun a => decide (a.id = attackId)) with _ | attack
    · simp [attackRoute, h1, h2, hf]
    by_cases h3 : gsA.attacker.resources < attack.cost
    · simp [attackRoute, h1, h2, hf, h3]
    · exfalso
      have hok : (attackRoute atkC attackId r gsA).2 = .ok (applyAttackCore gsA attack r) := by
        simp [attackRoute, h1, h2, hf, h3]
      rw [hok] at h
      exact Except.noConfusion h
  · intro h
    by_cases h1 : gsD.gameOver = true
    · simp [defendRoute, h1]
    by_cases h2 : gsD.currentPlayer = "defender"
    case neg => simp [defendRoute, h1, h2]
    rcases hf : (EnhancedMinimaxAI.getBestMove atkC defC ρ ai gsD).1 with _ | defense
    · simp [defendRoute, h1, h2, hf]
    by_cases h3 : gsD.defender.resources < defense.cost
    · simp [defendRoute, h1, h2, hf, h3]
    · exfalso
      have hok : (defendRoute atkC defC ρ r2 ai gsD).2.2 = .ok (applyDefenseCore gsD defense r2) := by
        simp [defendRoute, h1, h2, hf, h3]
      rw [hok] at h
      exact Except.noConfusion h

theorem C10_error_leaves_state_witness :
    (attackRoute [sampleAttack] 1 0 defenderTurnState).2 = .error .notYourTurn ∧
    (attackRoute [sampleAttack] 1 0 defenderTurnState).1 = defenderTurnState ∧
    (defendRoute [sampleAttack] [bigDefense] zeroRolls 0 aiDefault initGameState).2.2 =
      .error .notYourTurn ∧
    (defendRoute [sampleAttack] [bigDefense] zeroRolls 0 aiDefault initGameState).1 =
      initGameState := by
  have hA : (attackRoute [sampleAttack] 1 0 defenderTurnState).2 = .error .notYourTurn := by
    norm_num [attackRoute, defenderTurnState, initGameState, str_def_ne_att]
  have hD : (defendRoute [sampleAttack] [bigDefense] zeroRolls 0 aiDefault initGameState).2.2 =
      .error .notYourTurn := by
    norm_num [defendRoute, initGameState, str_att_ne_def]
  have h := C10_error_leaves_state [sampleAttack] [bigDefense] zeroRolls 0 0 aiDefault 1
    defenderTurnState initGameState .notYourTurn .notYourTurn
  exact ⟨hA, h.1 hA, hD, h.2 hD⟩

/-! Arithmetic helpers for the security-bounds claim. -/

lemma security_defense_bounds (s x : ℚ) :
    MIN_SECURITY ≤ max MIN_SECURITY (min MAX_SECURITY (s + x) - SECURITY_DECAY_RATE) ∧
    max MIN_SECURITY (min MAX_SECURITY (s + x) - SECURITY_DECAY_RATE) ≤ MAX_SECURITY := by
  constructor
  · exact le_max_left _ _
  · apply max_le
    · norm_num [MIN_SECURITY, MAX_SECURITY]
    · calc min MAX_SECURITY (s + x) - SECURITY_DECAY_RATE
          ≤ min MAX_SECURITY (s + x) := sub_le_self _ (by norm_num [SECURITY_DECAY_RATE])
        _ ≤ MAX_SECURITY := min_le_left _ _

lemma security_attack_bounds (s y : ℚ) (hs : s ≤ MAX_SECURITY) (hy : 0 ≤ y) :
    MIN_SECURITY ≤ max MIN_SECURITY (max MIN_SECURITY (s - y) - SECURITY_DECAY_RATE) ∧
    max MIN_SECURITY (max MIN_SECURITY (s - y) - SECURITY_DECAY_RATE) ≤ MAX_SECURITY := by
  constructor
  · exact le_max_left _ _
  · apply max_le
    · norm_num [MIN_SECURITY, MAX_SECURITY]
    · have h1 : max MIN_SECURITY (s - y) ≤ MAX_SECURITY := by
        apply max_le
        · norm_num [MIN_SECURITY, MAX_SECURITY]
        · linarith
      calc max MIN_SECURITY (s - y) - SECURITY_DECAY_RATE
          ≤ max MIN_SECURITY (s - y) := sub_le_self _ (by norm_num [SECURITY_DECAY_RATE])
        _ ≤ MAX_SECURITY := h1

lemma applyDefenseCore_fst (gs : GameState) (defense : Move) (r : ℚ) :
    (applyDefenseCore gs defense r).1 = checkGameEnd (applyDefensePre gs defense r) := rfl

/-- C4: the security level stays within [MIN_SECURITY, MAX_SECURITY]
across every Transition Function application, both for simulated moves
inside search (simulateMove) and for live moves applied through the
endpoints, provided it starts in range, the roll is in [0, 1), and the
catalog move effects are non-negative. -/
theorem C4_security_bounds (atkC atkC2 defC : List Move) (ρ : ℕ → ℚ) (r r2 r3 : ℚ)
    (ai : AIEngine) (attackId : ℕ) (m : Move) (gs gsA gsD gs1 gs2 : GameState)
    (sum : DefenseSummary) :
    (MIN_SECURITY ≤ gs.network.security_level → gs.network.security_level ≤ MAX_SECURITY →
      0 ≤ r → r < 1 → 0 ≤ m.security_boost → 0 ≤ m.damage → 0 ≤ m.effectiveness →
      MIN_SECURITY ≤ (EnhancedMinimaxAI.simulateMove gs m r).network.security_level ∧
      (EnhancedMinimaxAI.simulateMove gs m r).network.security_level ≤ MAX_SECURITY) ∧
    (MIN_SECURITY ≤ gsA.network.security_level → gsA.network.security_level ≤ MAX_SECURITY →
      0 ≤ r2 → r2 < 1 → (∀ a ∈ atkC, 0 ≤ a.damage ∧ 0 ≤ a.effectiveness) →
      (attackRoute atkC attackId r2 gsA).2 = .ok gs1 →
      MIN_SECURITY ≤ gs1.network.security_level ∧ gs1.network.security_level ≤ MAX_SECURITY) ∧
    (MIN_SECURITY ≤ gsD.network.security_level → gsD.network.security_level ≤ MAX_SECURITY →
      0 ≤ r3 → r3 < 1 → (∀ d ∈ defC, 0 ≤ d.security_boost ∧ 0 ≤ d.effectiveness) →
      (defendRoute atkC2 defC ρ r3 ai gsD).2.2 = .ok (gs2, sum) →
      MIN_SECURITY ≤ gs2.network.security_level ∧ gs2.network.security_level ≤ MAX_SECURITY) := by
  refine ⟨?_, ?_, ?_⟩
  · intro _ hhi hr _ _ hd he
    by_cases hm : m.type = "defense"
    · rw [(EnhancedMinimaxAI.simulateMove_defense gs m r hm).1]
      exact security_defense_bounds _ _
    · rw [(EnhancedMinimaxAI.simulateMove_attack gs m r hm).1]
      apply security_attack_bounds _ _ hhi
      apply mul_nonneg hd
      apply mul_nonneg he
      linarith
  · intro _ hhi hr _ hcat h
    obtain ⟨_, _, _, attack, hf, _, hgs⟩ := attackRoute_ok atkC attackId r2 gsA gs1 h
    have hmem := List.mem_of_find?_eq_some hf
    obtain ⟨hd, he⟩ := hcat attack hmem
    rw [hgs, applyAttackCore, checkGameEnd_network, (applyAttackPre_fields gsA attack r2).1]
    apply security_attack_bounds _ _ hhi
    apply mul_nonneg hd
    apply mul_nonneg he
    linarith
  · intro _ hhi hr _ hcat h
    obtain ⟨_, _, _, defense, hbest, _, hpair⟩ := defendRoute_ok atkC2 defC ρ r3 ai gsD gs2 sum h
    have hfst : gs2 = (applyDefenseCore gsD defense r3).1 := congrArg Prod.fst hpair
    have hgs : gs2 = checkGameEnd (applyDefensePre gsD defense r3) := by
      rw [hfst, applyDefenseCore_fst]
    rw [hgs, checkGameEnd_network, (applyDefensePre_fields gsD defense r3).1]
    exact security_defense_bounds _ _

theorem C4_security_bounds_witness :
    (MIN_SECURITY ≤ (EnhancedMinimaxAI.simulateMove defenderTurnState sampleDefense 0).network.security_level ∧
      (EnhancedMinimaxAI.simulateMove defenderTurnState sampleDefense 0).network.security_level ≤ MAX_SECURITY) ∧
    (MIN_SECURITY ≤ attackedState.network.security_level ∧
      attackedState.network.security_level ≤ MAX_SECURITY) ∧
    (MIN_SECURITY ≤ defendedState.network.security_level ∧
      defendedState.network.security_level ≤ MAX_SECURITY) := by
  have h := C4_security_bounds [sampleAttack] [] [bigDefense] zeroRolls 0 0 0 aiDefault 1
    sampleDefense defenderTurnState initGameState defenderTurnState attackedState
    defendedState bigSummary
  refine ⟨?_, ?_, ?_⟩
  · exact h.1 (by norm_num [MIN_SECURITY, defenderTurnState, initGameState])
      (by norm_num [MAX_SECURITY, defenderTurnState, initGameState])
      (le_refl 0) (by norm_num) (by norm_num [sampleDefense]) (by norm_num [sampleDefense])
      (by norm_num [sampleDefense])
  · exact h.2.1 (by norm_num [MIN_SECURITY, initGameState])
      (by norm_num [MAX_SECURITY, initGameState]) (le_refl 0) (by norm_num)
      (by intro a ha; rw [List.mem_singleton.mp ha]; norm_num [sampleAttack])
      (by rw [attackRoute_sample_eval])
  · exact h.2.2 (by norm_num [MIN_SECURITY, defenderTurnState, initGameState])
      (by norm_num [MAX_SECURITY, defenderTurnState, initGameState]) (le_refl 0) (by norm_num)
      (by intro d hd; rw [List.mem_singleton.mp hd]; norm_num [bigDefense])
      (by rw [defendRoute_big_eval])

/-- C1 fails on the code: inside search look-ahead, simulateMove gives a
defense a boost of security_boost times (1 + r times 0.2) - the nominal
effectiveness is not applied - and an attack a damage band of
0.9 + r times 0.2 rather than the claimed 0.8 + r times 0.4.  At roll 0
from security 50, the simulated sampleDefense (boost 10, effectiveness
1/2) leaves security at 59, not the claimed 53.5, and the simulated
sampleAttack (damage 20, effectiveness 1) leaves security at 31, not
the claimed 33. -/
theorem C1_counterexample :
    ((EnhancedMinimaxAI.simulateMove defenderTurnState sampleDefense 0).network.security_level = 59 ∧
      (59 : ℚ) ≠ max MIN_SECURITY (min MAX_SECURITY (defenderTurnState.network.security_level +
        sampleDefense.security_boost * (sampleDefense.effectiveness * (9/10 + 0 * (1/5)))) -
        SECURITY_DECAY_RATE)) ∧
    ((EnhancedMinimaxAI.simulateMove initGameState sampleAttack 0).network.security_level = 31 ∧
      (31 : ℚ) ≠ max MIN_SECURITY (max MIN_SECURITY (initGameState.network.security_level -
        sampleAttack.damage * (sampleAttack.effectiveness * (4/5 + 0 * (2/5)))) -
        SECURITY_DECAY_RATE)) := by
  refine ⟨⟨simulateMove_sampleDefense_eval, ?_⟩, ⟨simulateMove_sampleAttack_eval, ?_⟩⟩
  · norm_num [defenderTurnState, initGameState, sampleDefense,
      MIN_SECURITY, MAX_SECURITY, SECURITY_DECAY_RATE, min_def, max_def]
  · norm_num [initGameState, sampleAttack,
      MIN_SECURITY, MAX_SECURITY, SECURITY_DECAY_RATE, min_def, max_def]

/-- C1 amended: the live endpoints follow the spec formulas - /attack
lowers security by damage times effectiveness times (0.8 + r times 0.4)
and /defend raises it by security_boost times effectiveness times
(0.9 + r times 0.2), both before clamping and the decay - but the
simulated applications inside search use security_boost times
(1 + r times 0.2) for defenses (no effectiveness factor) and damage
times effectiveness times (0.9 + r times 0.2) for attacks. -/
theorem C1_amended (atkC atkC2 defC : List Move) (ρ : ℕ → ℚ) (r1 r2 r3 r4 : ℚ)
    (ai : AIEngine) (attackId : ℕ) (m m2 att : Move) (gs gsb gsA gsD gs1 gs3 : GameState)
    (sum : DefenseSummary) :
    (m.type = "defense" →
      (EnhancedMinimaxAI.simulateMove gs m r1).network.security_level =
        max MIN_SECURITY (min MAX_SECURITY
          (gs.network.security_level + m.security_boost * (1 + r1 * (1/5))) -
          SECURITY_DECAY_RATE)) ∧
    (¬ m2.type = "defense" →
      (EnhancedMinimaxAI.simulateMove gsb m2 r2).network.security_level =
        max MIN_SECURITY (max MIN_SECURITY
          (gsb.network.security_level - m2.damage * (m2.effectiveness * (9/10 + r2 * (1/5)))) -
          SECURITY_DECAY_RATE)) ∧
    ((attackRoute atkC attackId r3 gsA).2 = .ok gs1 →
      atkC.find? (fun a => decide (a.id = attackId)) = some att →
      gs1.network.security_level =
        max MIN_SECURITY (max MIN_SECURITY
          (gsA.network.security_level - att.damage * (att.effectiveness * (4/5 + r3 * (2/5)))) -
          SECURITY_DECAY_RATE)) ∧
    ((defendRoute atkC2 defC ρ r4 ai gsD).2.2 = .ok (gs3, sum) →
      ∃ defense : Move, (EnhancedMinimaxAI.getBestMove atkC2 defC ρ ai gsD).1 = some defense ∧
        sum.boost = defense.security_boost * (defense.effectiveness * (9/10 + r4 * (1/5))) ∧
        gs3.network.security_level =
          max MIN_SECURITY (min MAX_SECURITY (gsD.network.security_level + sum.boost) -
            SECURITY_DECAY_RATE)) := by
  refine ⟨?_, ?_, ?_, ?_⟩
  · intro hm
    exact (EnhancedMinimaxAI.simulateMove_defense gs m r1 hm).1
  · intro hm
    exact (EnhancedMinimaxAI.simulateMove_attack gsb m2 r2 hm).1
  · intro h hf
    obtain ⟨_, _, _, attack, hf2, _, hgs⟩ := attackRoute_ok atkC attackId r3 gsA gs1 h
    rw [hf] at hf2
    injection hf2 with hatt
    subst hatt
    rw [hgs, applyAttackCore, checkGameEnd_network, (applyAttackPre_fields gsA att r3).1]
  · intro h
    obtain ⟨_, _, _, defense, hbest, _, hpair⟩ := defendRoute_ok atkC2 defC ρ r4 ai gsD gs3 sum h
    have hfst : gs3 = (applyDefenseCore gsD defense r4).1 := congrArg Prod.fst hpair
    have hsnd : sum = (applyDefenseCore gsD defense r4).2 := congrArg Prod.snd hpair
    have hsum : sum.boost =
        defense.security_boost * (defense.effectiveness * (9/10 + r4 * (1/5))) := by
      rw [hsnd, applyDefenseCore_summary]
    refine ⟨defense, hbest, hsum, ?_⟩
    rw [hfst, applyDefenseCore_fst, checkGameEnd_network,
      (applyDefensePre_fields gsD defense r4).1, hsum]

theorem C1_amended_witness :
    (EnhancedMinimaxAI.simulateMove defenderTurnState sampleDefense 0).network.security_level =
      max MIN_SECURITY (min MAX_SECURITY (defenderTurnState.network.security_level +
        sampleDefense.security_boost * (1 + 0 * (1/5))) - SECURITY_DECAY_RATE) ∧
    (EnhancedMinimaxAI.simulateMove initGameState sampleAttack 0).network.security_level =
      max MIN_SECURITY (max MIN_SECURITY (initGameState.network.security_level -
        sampleAttack.damage * (sampleAttack.effectiveness * (9/10 + 0 * (1/5)))) -
        SECURITY_DECAY_RATE) ∧
    attackedState.network.security_level =
      max MIN_SECURITY (max MIN_SECURITY (initGameState.network.security_level -
        sampleAttack.damage * (sampleAttack.effectiveness * (4/5 + 0 * (2/5)))) -
        SECURITY_DECAY_RATE) ∧
    (∃ defense : Move,
      (EnhancedMinimaxAI.getBestMove [] [bigDefense] zeroRolls aiDefault defenderTurnState).1 =
        some defense ∧
      bigSummary.boost = defense.security_boost * (defense.effectiveness * (9/10 + 0 * (1/5))) ∧
      defendedState.network.security_level =
        max MIN_SECURITY (min MAX_SECURITY (defenderTurnState.network.security_level +
          bigSummary.boost) - SECURITY_DECAY_RATE)) := by
  have h := C1_amended [sampleAttack] [] [bigDefense] zeroRolls 0 0 0 0 aiDefault 1
    sampleDefense sampleAttack sampleAttack defenderTurnState initGameState initGameState
    defenderTurnState attackedState defendedState bigSummary
  refine ⟨h.1 rfl, h.2.1 str_social_ne_defense, ?_, ?_⟩
  · exact h.2.2.1 (by rw [attackRoute_sample_eval]) rfl
  · exact h.2.2.2 (by rw [defendRoute_big_eval])

/-- C2 fails on the code: the per-turn regeneration is credited to the
side that just moved, not to the newly-current side.  After a
successful /attack from the initial state the defender - who is now
current - still has exactly the initial 100 resources (no +15), while
the attacker who just moved holds 100 - 5 + 10 = 105. -/
theorem C2_counterexample :
    (attackRoute [sampleAttack] 1 0 initGameState).2 = .ok attackedState ∧
    attackedState.currentPlayer = "defender" ∧
    attackedState.defender.resources = initGameState.defender.resources ∧
    attackedState.attacker.resources =
      initGameState.attacker.resources - sampleAttack.cost + TURN_RESOURCES_attacker ∧
    initGameState.defender.resources + TURN_RESOURCES_defender ≠
      initGameState.defender.resources := by
  refine ⟨by rw [attackRoute_sample_eval], rfl, rfl, ?_, ?_⟩
  · norm_num [attackedState, initGameState, sampleAttack, TURN_RESOURCES_attacker,
      INITIAL_RESOURCES]
  · norm_num [initGameState, TURN_RESOURCES_defender, INITIAL_RESOURCES]

/-- C2 amended: after every applied move the regeneration goes to the
side that just moved: an applied defense leaves the defender with
resources - cost + TURN_RESOURCES.defender and the attacker untouched,
and an applied attack leaves the attacker with resources - cost +
TURN_RESOURCES.attacker and the defender untouched, in simulateMove and
in both endpoints alike. -/
theorem C2_amended (atkC atkC2 defC : List Move) (ρ : ℕ → ℚ) (r1 r2 r3 r4 : ℚ)
    (ai : AIEngine) (attackId : ℕ) (m m2 att : Move) (gs gsb gsA gsD gs1 gs3 : GameState)
    (sum : DefenseSummary) :
    (m.type = "defense" →
      (EnhancedMinimaxAI.simulateMove gs m r1).defender.resources =
        gs.defender.resources - m.cost + TURN_RESOURCES_defender ∧
      (EnhancedMinimaxAI.simulateMove gs m r1).attacker.resources = gs.attacker.resources) ∧
    (¬ m2.type = "defense" →
      (EnhancedMinimaxAI.simulateMove gsb m2 r2).attacker.resources =
        gsb.attacker.resources - m2.cost + TURN_RESOURCES_attacker ∧
      (EnhancedMinimaxAI.simulateMove gsb m2 r2).defender.resources = gsb.defender.resources) ∧
    ((attackRoute atkC attackId r3 gsA).2 = .ok gs1 →
      atkC.find? (fun a => decide (a.id = attackId)) = some att →
      gs1.attacker.resources = gsA.attacker.resources - att.cost + TURN_RESOURCES_attacker ∧
      gs1.defender.resources = gsA.defender.resources) ∧
    ((defendRoute atkC2 defC ρ r4 ai gsD).2.2 = .ok (gs3, sum) →
      gs3.defender.resources = gsD.defender.resources - sum.cost + TURN_RESOURCES_defender ∧
      gs3.attacker.resources = gsD.attacker.resources) := by
  refine ⟨?_, ?_, ?_, ?_⟩
  · intro hm
    obtain ⟨_, _, _, h4, h5⟩ := EnhancedMinimaxAI.simulateMove_defense gs m r1 hm
    exact ⟨h4, h5⟩
  · intro hm
    obtain ⟨_, _, _, h4, h5⟩ := EnhancedMinimaxAI.simulateMove_attack gsb m2 r2 hm
    exact ⟨h4, h5⟩
  · intro h hf
    obtain ⟨_, _, _, attack, hf2, _, hgs⟩ := attackRoute_ok atkC attackId r3 gsA gs1 h
    rw [hf] at hf2
    injection hf2 with hatt
    subst hatt
    obtain ⟨_, _, _, h4, h5, _, _⟩ := applyAttackPre_fields gsA att r3
    constructor
    · rw [hgs, applyAttackCore, checkGameEnd_attacker, h4]
    · rw [hgs, applyAttackCore, checkGameEnd_defender, h5]
  · intro h
    obtain ⟨_, _, _, defense, hbest, _, hpair⟩ := defendRoute_ok atkC2 defC ρ r4 ai gsD gs3 sum h
    have hfst : gs3 = (applyDefenseCore gsD defense r4).1 := congrArg Prod.fst hpair
    have hsnd : sum = (applyDefenseCore gsD defense r4).2 := congrArg Prod.snd hpair
    have hcost : sum.cost = defense.cost := by rw [hsnd, applyDefenseCore_summary]
    obtain ⟨_, _, _, h4, h5, _, _⟩ := applyDefensePre_fields gsD defense r4
    constructor
    · rw [hfst, applyDefenseCore_fst, checkGameEnd_defender, h4, hcost]
    · rw [hfst, applyDefenseCore_fst, checkGameEnd_attacker, h5]

theorem C2_amended_witness :
    ((EnhancedMinimaxAI.simulateMove defenderTurnState sampleDefense 0).defender.resources =
      defenderTurnState.defender.resources - sampleDefense.cost + TURN_RESOURCES_defender ∧
     (EnhancedMinimaxAI.simulateMove defenderTurnState sampleDefense 0).attacker.resources =
      defenderTurnState.attacker.resources) ∧
    ((EnhancedMinimaxAI.simulateMove initGameState sampleAttack 0).attacker.resources =
      initGameState.attacker.resources - sampleAttack.cost + TURN_RESOURCES_attacker ∧
     (EnhancedMinimaxAI.simulateMove initGameState sampleAttack 0).defender.resources =
      initGameState.defender.resources) ∧
    (attackedState.attacker.resources =
      initGameState.attacker.resources - sampleAttack.cost + TURN_RESOURCES_attacker ∧
     attackedState.defender.resources = initGameState.defender.resources) ∧
    (defendedState.defender.resources =
      defenderTurnState.defender.resources - bigSummary.cost + TURN_RESOURCES_defender ∧
     defendedState.attacker.resources = defenderTurnState.attacker.resources) := by
  have h := C2_amended [sampleAttack] [] [bigDefense] zeroRolls 0 0 0 0 aiDefault 1
    sampleDefense sampleAttack sampleAttack defenderTurnState initGameState initGameState
    defenderTurnState attackedState defendedState bigSummary
  refine ⟨h.1 rfl, h.2.1 str_social_ne_defense, ?_, ?_⟩
  · exact h.2.2.1 (by rw [attackRoute_sample_eval]) rfl
  · exact h.2.2.2 (by rw [defendRoute_big_eval])

/-- C3 fails on the code: a defense whose realized boost pushes the
security level to MAX_SECURITY does not end the game - the per-turn
decay runs before checkGameEnd, so the post-request level is 99 and
gameOver stays false.  Concretely, /defend with bigDefense (realized
boost 54 from level 50, clamped at 100) succeeds and leaves a running
game. -/
theorem C3_counterexample :
    (defendRoute [] [bigDefense] zeroRolls 0 aiDefault defenderTurnState).2.2 =
      .ok (defendedState, bigSummary) ∧
    MAX_SECURITY ≤ defenderTurnState.network.security_level + bigSummary.boost ∧
    defendedState.gameOver = false ∧ defendedState.winner = none := by
  refine ⟨by rw [defendRoute_big_eval], ?_, rfl, rfl⟩
  norm_num [MAX_SECURITY, defenderTurnState, initGameState, bigSummary]

/-- C3 amended: a successful /defend whose realized boost pushes the
pre-decay security level to MAX_SECURITY leaves the level at exactly
MAX_SECURITY - SECURITY_DECAY_RATE; unless both actors resources have
reached 0 the game does not end and the winner field is untouched -
the defender-wins-at-MAX condition never fires from such a move. -/
theorem C3_amended (atkC defC : List Move) (ρ : ℕ → ℚ) (r : ℚ) (ai : AIEngine)
    (gs gs' : GameState) (sum : DefenseSummary)
    (h : (defendRoute atkC defC ρ r ai gs).2.2 = .ok (gs', sum))
    (hb : MAX_SECURITY ≤ gs.network.security_level + sum.boost)
    (hres : ¬ (gs'.attacker.resources ≤ 0 ∧ gs'.defender.resources ≤ 0)) :
    gs'.network.security_level = MAX_SECURITY - SECURITY_DECAY_RATE ∧
    gs'.gameOver = false ∧ gs'.winner = gs.winner := by
  obtain ⟨hgo, _, _, defense, hbest, _, hpair⟩ := defendRoute_ok atkC defC ρ r ai gs gs' sum h
  have hfst : gs' = (applyDefenseCore gs defense r).1 := congrArg Prod.fst hpair
  have hsnd : sum = (applyDefenseCore gs defense r).2 := congrArg Prod.snd hpair
  have hsum : sum.boost =
      defense.security_boost * (defense.effectiveness * (9/10 + r * (1/5))) := by
    rw [hsnd, applyDefenseCore_summary]
  have hgs : gs' = checkGameEnd (applyDefensePre gs defense r) := by
    rw [hfst, applyDefenseCore_fst]
  obtain ⟨hsec, _, _, _, _, hgopre, hwin⟩ := applyDefensePre_fields gs defense r
  have hminmax : min MAX_SECURITY (gs.network.security_level +
      defense.security_boost * (defense.effectiveness * (9/10 + r * (1/5)))) = MAX_SECURITY :=
    min_eq_left (by rw [← hsum]; exact hb)
  have hsec2 : (applyDefensePre gs defense r).network.security_level =
      MAX_SECURITY - SECURITY_DECAY_RATE := by
    rw [hsec, hminmax]
    exact max_eq_right (by norm_num [MIN_SECURITY, MAX_SECURITY, SECURITY_DECAY_RATE])
  have hnot1 : ¬ (applyDefensePre gs defense r).network.security_level ≤ MIN_SECURITY := by
    rw [hsec2]
    norm_num [MIN_SECURITY, MAX_SECURITY, SECURITY_DECAY_RATE]
  have hnot2 : ¬ MAX_SECURITY ≤ (applyDefensePre gs defense r).network.security_level := by
    rw [hsec2]
    norm_num [MAX_SECURITY, SECURITY_DECAY_RATE]
  have hnot3 : ¬ ((applyDefensePre gs defense r).attacker.resources ≤ 0 ∧
      (applyDefensePre gs defense r).defender.resources ≤ 0) := by
    intro hc
    apply hres
    rw [hgs, checkGameEnd_attacker, checkGameEnd_defender]
    exact hc
  have hid : checkGameEnd (applyDefensePre gs defense r) = applyDefensePre gs defense r :=
    checkGameEnd_not_over _ hnot1 hnot2 hnot3
  rw [hgs, hid]
  exact ⟨hsec2, by rw [hgopre]; exact hgo, hwin⟩

theorem C3_amended_witness :
    MAX_SECURITY ≤ defenderTurnState.network.security_level + bigSummary.boost ∧
    ¬ (defendedState.attacker.resources ≤ 0 ∧ defendedState.defender.resources ≤ 0) ∧
    defendedState.network.security_level = MAX_SECURITY - SECURITY_DECAY_RATE ∧
    defendedState.gameOver = false ∧ defendedState.winner = defenderTurnState.winner := by
  have hb : MAX_SECURITY ≤ defenderTurnState.network.security_level + bigSummary.boost := by
    norm_num [MAX_SECURITY, defenderTurnState, initGameState, bigSummary]
  have hres : ¬ (defendedState.attacker.resources ≤ 0 ∧ defendedState.defender.resources ≤ 0) := by
    norm_num [defendedState]
  have h := C3_amended [] [bigDefense] zeroRolls 0 aiDefault defenderTurnState defendedState
    bigSummary (by rw [defendRoute_big_eval]) hb hres
  exact ⟨hb, hres, h.1, h.2.1, h.2.2⟩

/-- C7 fails on the code in one corner: when every candidate defense
scores minus Infinity (every simulated line loses), the strict
greater-or-tie-cheaper update never fires from the initial
(null, minus Infinity) pair, so getBestMove returns null even though a
legal (affordable) defense exists - the cheaper-cost move is not
selected among the equally-scored legal defenses.  Concretely, at
security level 1/2 the only defense (cost 10, affordable with 100
resources) always leads to an attacker win, and getBestMove returns
none. -/
theorem C7_counterexample :
    ([tinyDefense].filter
      (fun d => decide (d.cost ≤ lowSecurityState.defender.resources)) = [tinyDefense]) ∧
    (EnhancedMinimaxAI.getBestMove [] [tinyDefense] zeroRolls aiDefault lowSecurityState).1 =
      none := by
  constructor
  · norm_num [lowSecurityState, initGameState, tinyDefense, INITIAL_RESOURCES,
      List.filter_cons, List.filter_nil]
  · rw [getBestMove_tiny_eval]

/-- C7 amended: at the search root, a candidate replaces the current
best only on a strictly greater adjusted score or an exact score tie
with strictly smaller cost; consequently, when at least one affordable
defense exists, either the returned move is a top-adjusted-score
candidate whose cost is minimal among all top scorers, or no move is
returned at all and then every candidate adjusted score is minus
Infinity (the null best with score minus Infinity was never beaten). -/
theorem C7_amended (atkC defC : List Move) (ρ : ℕ → ℚ) (ai : AIEngine) (gs : GameState)
    (hne : (defC.filter (fun d => decide (d.cost ≤ gs.defender.resources))).isEmpty = false) :
    ((EnhancedMinimaxAI.getBestMove atkC defC ρ ai gs).1 = none →
      ∀ p ∈ EnhancedMinimaxAI.rootScores atkC defC ρ ai gs
          (defC.filter (fun d => decide (d.cost ≤ gs.defender.resources))),
        p.2 = (⊥ : EScore)) ∧
    (∀ d : Move, (EnhancedMinimaxAI.getBestMove atkC defC ρ ai gs).1 = some d →
      ∃ s : EScore,
        (d, s) ∈ EnhancedMinimaxAI.rootScores atkC defC ρ ai gs
          (defC.filter (fun d => decide (d.cost ≤ gs.defender.resources))) ∧
        (∀ p ∈ EnhancedMinimaxAI.rootScores atkC defC ρ ai gs
            (defC.filter (fun d => decide (d.cost ≤ gs.defender.resources))),
          p.2 ≤ s) ∧
        (∀ p ∈ EnhancedMinimaxAI.rootScores atkC defC ρ ai gs
            (defC.filter (fun d => decide (d.cost ≤ gs.defender.resources))),
          p.2 = s → d.cost ≤ p.1.cost)) := by
  have hfst := EnhancedMinimaxAI.getBestMove_fst atkC defC ρ ai gs hne
  obtain ⟨inv1, inv2, inv3, inv4, inv5, inv6, inv7⟩ :=
    EnhancedMinimaxAI.rootStep_foldl_invariant
      (EnhancedMinimaxAI.rootScores atkC defC ρ ai gs
        (defC.filter (fun d => decide (d.cost ≤ gs.defender.resources))))
      (none, (⊥ : EScore)) (fun _ => rfl)
  constructor
  · intro h0 p hp
    rw [hfst] at h0
    exact (inv2 h0).2 p hp
  · intro d hd
    rw [hfst] at hd
    refine ⟨_, ?_, inv3, fun p hp hps => inv7 d hd p hp hps⟩
    rcases inv4 d hd with heq | hmem
    · rw [heq] at hd
      cases hd
    · exact hmem

theorem C7_amended_witness :
    (([bigDefense].filter
      (fun d => decide (d.cost ≤ defenderTurnState.defender.resources))).isEmpty = false) ∧
    ((EnhancedMinimaxAI.getBestMove [] [bigDefense] zeroRolls aiDefault defenderTurnState).1 =
        none →
      ∀ p ∈ EnhancedMinimaxAI.rootScores [] [bigDefense] zeroRolls aiDefault defenderTurnState
          ([bigDefense].filter
            (fun d => decide (d.cost ≤ defenderTurnState.defender.resources))),
        p.2 = (⊥ : EScore)) ∧
    (∀ d : Move,
      (EnhancedMinimaxAI.getBestMove [] [bigDefense] zeroRolls aiDefault defenderTurnState).1 =
        some d →
      ∃ s : EScore,
        (d, s) ∈ EnhancedMinimaxAI.rootScores [] [bigDefense] zeroRolls aiDefault
          defenderTurnState
          ([bigDefense].filter
            (fun d => decide (d.cost ≤ defenderTurnState.defender.resources))) ∧
        (∀ p ∈ EnhancedMinimaxAI.rootScores [] [bigDefense] zeroRolls aiDefault
            defenderTurnState
            ([bigDefense].filter
              (fun d => decide (d.cost ≤ defenderTurnState.defender.resources))),
          p.2 ≤ s) ∧
        (∀ p ∈ EnhancedMinimaxAI.rootScores [] [bigDefense] zeroRolls aiDefault
            defenderTurnState
            ([bigDefense].filter
              (fun d => decide (d.cost ≤ defenderTurnState.defender.resources))),
          p.2 = s → d.cost ≤ p.1.cost)) := by
  have hne : (([bigDefense].filter
      (fun d => decide (d.cost ≤ defenderTurnState.defender.resources))).isEmpty = false) := by
    norm_num [defenderTurnState, initGameState, bigDefense, INITIAL_RESOURCES,
      List.filter_cons, List.filter_nil, List.isEmpty_cons]
  have h := C7_amended [] [bigDefense] zeroRolls aiDefault defenderTurnState hne
  exact ⟨hne, h.1, h.2⟩
